import Mathlib

/-!
# Verification of the Prewrite command (tinykv transaction layer)

Shallow embedding of `kv/transaction/commands/prewrite.go` and the parts of
its environment it touches.  Byte strings are modelled as `List Nat`,
64-bit timestamps as `Nat`, Go `error` values as `Option String`
(`none` = nil).  The `MvccTxn` read interface (`MostRecentWrite`,
`GetLock`) is modelled as function-valued fields, and the transaction's
write buffer (`PutLock`, `PutValue`, `DeleteValue`, ...) as an explicit
list of staged writes returned by each command.
-/

/-- Byte string (Go `[]byte`). -/
abbrev Bytes := List Nat

/-- Modelled from the spec: the numeric operation codes of the protobuf
enum `kvrpcpb.Op` (the proto package is not under src/).  `Put = 0`,
`Del = 1`, `Rollback = 2`, `Lock = 3`. -/
def OpPut : Nat := 0

/-- `kvrpcpb.Op_Del` (see `OpPut`). -/
def OpDel : Nat := 1

/-- `kvrpcpb.Op_Rollback` (see `OpPut`). -/
def OpRollback : Nat := 2

/-- `kvrpcpb.Op_Lock` (see `OpPut`). -/
def OpLock : Nat := 3

/-- Modelled from the spec: the numeric values of `mvcc.WriteKind`
(`kv/transaction/mvcc` is not under src/): `WriteKindPut = 1`,
`WriteKindDelete = 2`, `WriteKindRollback = 3`.  The installed lock's
kind is computed in the source as a fixed offset (`mu.Op + 1`) from the
operation code. -/
def WriteKindPut : Nat := 1

/-- `mvcc.WriteKindDelete` (see `WriteKindPut`). -/
def WriteKindDelete : Nat := 2

/-- `mvcc.WriteKindRollback` (see `WriteKindPut`). -/
def WriteKindRollback : Nat := 3

/-- A Write record (`mvcc.Write`): durable history entry, keyed in the
Write column family by (key, commit_ts). -/
structure Write where
  startTs : Nat
  kind : Nat
deriving DecidableEq, Repr

/-- A lock (`mvcc.Lock`): at most one per key, placed by prewrite. -/
structure Lock where
  primary : Bytes
  ts : Nat
  ttl : Nat
  kind : Nat
deriving DecidableEq, Repr

/-- `kvrpcpb.LockInfo`: the wire representation of a lock in a Locked
error. -/
structure LockInfo where
  primaryLock : Bytes
  lockVersion : Nat
  key : Bytes
  lockTtl : Nat
deriving DecidableEq, Repr

/-- Modelled from the spec: `mvcc.Lock.Info(key)` (not under src/).  The
spec: the locked error carries "enough information (primary key, lock
start_ts, TTL)" for resolution, together with the key. -/
def Lock.info (l : Lock) (key : Bytes) : LockInfo :=
  { primaryLock := l.primary, lockVersion := l.ts, key := key, lockTtl := l.ttl }

/-- `kvrpcpb.WriteConflict`. -/
structure WriteConflict where
  startTs : Nat
  conflictTs : Nat
  key : Bytes
  primary : Bytes
deriving DecidableEq, Repr

/-- `kvrpcpb.KeyError`: per-key error variants; unset fields are Go zero
values (`nil` pointers / empty strings). -/
structure KeyError where
  locked : Option LockInfo := none
  retryable : String := ""
  abort : String := ""
  conflict : Option WriteConflict := none
deriving DecidableEq, Repr

/-- One mutation of a `kvrpcpb.PrewriteRequest`. -/
structure Mutation where
  op : Nat
  key : Bytes
  value : Bytes
deriving DecidableEq, Repr

/-- `kvrpcpb.PrewriteRequest` (context omitted). -/
structure PrewriteRequest where
  mutations : List Mutation
  primaryLock : Bytes
  startVersion : Nat
  lockTtl : Nat
deriving DecidableEq, Repr

/-- `kvrpcpb.PrewriteResponse` (region error omitted). -/
structure PrewriteResponse where
  errors : List KeyError
deriving DecidableEq, Repr

/-- One entry of the `MvccTxn` write buffer: the staged modifications a
command may request (`PutLock`, `DeleteLock`, `PutValue`, `DeleteValue`,
`PutWrite`), flushed atomically after the command completes. -/
inductive StagedWrite where
  | putLock (key : Bytes) (lock : Lock)
  | deleteLock (key : Bytes)
  | putValue (key : Bytes) (value : Bytes)
  | deleteValue (key : Bytes)
  | putWrite (key : Bytes) (commitTs : Nat) (write : Write)
deriving DecidableEq, Repr

/-- The user key a staged write touches. -/
def StagedWrite.wkey : StagedWrite → Bytes
  | .putLock k _ => k
  | .deleteLock k => k
  | .putValue k _ => k
  | .deleteValue k => k
  | .putWrite k _ _ => k

/-- Whether a staged write is a Write-record installation (`PutWrite`). -/
def StagedWrite.isPutWrite : StagedWrite → Bool
  | .putWrite _ _ _ => true
  | _ => false

/-- The read side of `mvcc.MvccTxn`: the bound `start_ts` plus the
snapshot reads the Prewrite command performs.  `mostRecentWrite` models
`MostRecentWrite(key) (*Write, uint64, error)`; `getLock` models
`GetLock(key) (*Lock, error)`.  Reads go to a fixed snapshot, so they are
pure functions of the key. -/
structure MvccTxn where
  startTS : Nat
  mostRecentWrite : Bytes → Option Write × Nat × Option String
  getLock : Bytes → Option Lock × Option String

/-- `Prewrite.prewriteMutation` from `prewrite.go`, translated branch for
branch.  Result: (KeyError, internal error, staged writes of this call).
Note that, as in the source, the `error` returned by `GetLock` is bound
but never inspected. -/
def prewriteMutation (req : PrewriteRequest) (txn : MvccTxn) (mu : Mutation) :
    Option KeyError × Option String × List StagedWrite :=
  let key := mu.key
  let mrw := txn.mostRecentWrite key
  let write := mrw.1
  let commitTs := mrw.2.1
  let err := mrw.2.2
  if write.isSome ∧ commitTs ≥ txn.startTS then
    (some { conflict := some { startTs := txn.startTS, conflictTs := commitTs,
                               key := key, primary := req.primaryLock } },
     none, [])
  else if err.isSome then
    (none, err, [])
  else
    match (txn.getLock key).1 with
    | some keyLock =>
        if keyLock.ts ≠ txn.startTS then
          (some { locked := some (keyLock.info key),
                  conflict := some { startTs := txn.startTS, conflictTs := keyLock.ts,
                                     key := key, primary := req.primaryLock } },
           none, [])
        else
          (none, none, [])
    | none =>
        let keyLock : Lock :=
          { primary := req.primaryLock, ts := txn.startTS, ttl := req.lockTtl,
            kind := mu.op + 1 }
        if mu.op = OpPut then
          (none, none, [.putLock key keyLock, .putValue key mu.value])
        else if mu.op = OpDel then
          (none, none, [.putLock key keyLock, .deleteValue key])
        else
          (none, none, [.putLock key keyLock])

/-- The loop body of `Prewrite.PrepareWrites`: process the remaining
mutations, accumulating per-key errors and the staged write buffer;
return `nil, err` (aborting) on the first internal error whose call
produced no KeyError. -/
def prewriteLoop (req : PrewriteRequest) (txn : MvccTxn) :
    List Mutation → List KeyError → List StagedWrite →
    Option PrewriteResponse × Option String × List StagedWrite
  | [], errs, staged => (some { errors := errs }, none, staged)
  | m :: ms, errs, staged =>
      let r := prewriteMutation req txn m
      match r.1 with
      | some keyError => prewriteLoop req txn ms (errs ++ [keyError]) (staged ++ r.2.2)
      | none =>
          match r.2.1 with
          | some e => (none, some e, staged ++ r.2.2)
          | none => prewriteLoop req txn ms errs (staged ++ r.2.2)

/-- `Prewrite.PrepareWrites`: prewrite all mutations in the request. -/
def PrepareWrites (req : PrewriteRequest) (txn : MvccTxn) :
    Option PrewriteResponse × Option String × List StagedWrite :=
  prewriteLoop req txn req.mutations [] []

/-- `Prewrite.WillWrite`: the keys the command declares to the latch
manager, built by appending each mutation's key in order. -/
def WillWrite (req : PrewriteRequest) : List Bytes :=
  req.mutations.foldl (fun result m => result ++ [m.key]) []

/-- An abstract healthy store (the three column families), used to relate
two successive Prewrite calls: lock CF, Default CF keyed by (key, ts),
and the most recent Write record per key with its commit ts. -/
structure Store where
  lockCF : Bytes → Option Lock
  defaultCF : Bytes → Nat → Option Bytes
  writeCF : Bytes → Option (Write × Nat)

/-- The `MvccTxn` view of a healthy store: reads never fail;
`MostRecentWrite` returns `(nil, 0, nil)` on a key with no history. -/
def txnOf (s : Store) (startTS : Nat) : MvccTxn :=
  { startTS := startTS,
    mostRecentWrite := fun k =>
      match s.writeCF k with
      | some (w, cts) => (some w, cts, none)
      | none => (none, 0, none),
    getLock := fun k => (s.lockCF k, none) }

/-- Applying the staged write buffer of a transaction bound to `startTS`
to the store, in order (`PutValue`/`DeleteValue` stage a versioned entry
at `startTS` in the Default family; `PutWrite` records history). -/
def applyStaged (startTS : Nat) : Store → List StagedWrite → Store
  | s, [] => s
  | s, .putLock k l :: rest =>
      applyStaged startTS
        { s with lockCF := fun k2 => if k2 = k then some l else s.lockCF k2 } rest
  | s, .deleteLock k :: rest =>
      applyStaged startTS
        { s with lockCF := fun k2 => if k2 = k then none else s.lockCF k2 } rest
  | s, .putValue k v :: rest =>
      applyStaged startTS
        { s with defaultCF := fun k2 ts =>
            if k2 = k ∧ ts = startTS then some v else s.defaultCF k2 ts } rest
  | s, .deleteValue k :: rest =>
      applyStaged startTS
        { s with defaultCF := fun k2 ts =>
            if k2 = k ∧ ts = startTS then none else s.defaultCF k2 ts } rest
  | s, .putWrite k cts w :: rest =>
      applyStaged startTS
        { s with writeCF := fun k2 =>
            if k2 = k then
              match s.writeCF k2 with
              | some (w0, cts0) => if cts ≥ cts0 then some (w, cts) else some (w0, cts0)
              | none => some (w, cts)
            else s.writeCF k2 } rest

/-- C1: if `MostRecentWrite` finds a write record with
`commit_ts ≥ start_ts`, `prewriteMutation` returns exactly the
WriteConflict KeyError {start_ts, conflicting commit_ts, key, primary},
no internal error, and stages nothing for the key. -/
theorem prewrite_write_conflict (req : PrewriteRequest) (txn : MvccTxn)
    (mu : Mutation) (w : Write) (cts : Nat) (e : Option String)
    (hmrw : txn.mostRecentWrite mu.key = (some w, cts, e))
    (hconf : cts ≥ txn.startTS) :
    prewriteMutation req txn mu =
      (some { conflict := some { startTs := txn.startTS, conflictTs := cts,
                                 key := mu.key, primary := req.primaryLock } },
       none, []) := by
  simp [prewriteMutation, hmrw, hconf]

/-- C1 witness: a concrete key with history committed at ts 12 conflicts
with a transaction whose start ts is 10. -/
theorem prewrite_write_conflict_witness :
    prewriteMutation
      { mutations := [{ op := OpPut, key := [2], value := [7] }],
        primaryLock := [1], startVersion := 10, lockTtl := 3 }
      { startTS := 10,
        mostRecentWrite := fun _ => (some { startTs := 5, kind := WriteKindPut }, 12, none),
        getLock := fun _ => (none, none) }
      { op := OpPut, key := [2], value := [7] } =
      (some { conflict := some { startTs := 10, conflictTs := 12,
                                 key := [2], primary := [1] } },
       none, []) :=
  prewrite_write_conflict _ _ _ { startTs := 5, kind := WriteKindPut } 12 none rfl
    (by decide)

/-- C2: a lock held by a different transaction (and no conflicting write)
yields a Locked KeyError carrying the lock's info bundled with the
WriteConflict metadata; the call stages nothing (so the existing lock is
left untouched and no value is staged). -/
theorem prewrite_locked (req : PrewriteRequest) (txn : MvccTxn) (mu : Mutation)
    (wOpt : Option Write) (cts : Nat) (kl : Lock) (e2 : Option String)
    (hmrw : txn.mostRecentWrite mu.key = (wOpt, cts, none))
    (hnoconf : ¬ (wOpt.isSome ∧ cts ≥ txn.startTS))
    (hlock : txn.getLock mu.key = (some kl, e2))
    (hts : kl.ts ≠ txn.startTS) :
    prewriteMutation req txn mu =
      (some { locked := some (kl.info mu.key),
              conflict := some { startTs := txn.startTS, conflictTs := kl.ts,
                                 key := mu.key, primary := req.primaryLock } },
       none, []) := by
  simp [prewriteMutation, hmrw, hnoconf, hlock, hts]

/-- C2 witness: a key locked at ts 7 blocks a transaction with start ts
10; the Locked error carries the blocker's primary, start ts and TTL. -/
theorem prewrite_locked_witness :
    prewriteMutation
      { mutations := [{ op := OpPut, key := [2], value := [7] }],
        primaryLock := [1], startVersion := 10, lockTtl := 3 }
      { startTS := 10,
        mostRecentWrite := fun _ => (none, 0, none),
        getLock := fun _ => (some { primary := [9], ts := 7, ttl := 50, kind := WriteKindPut }, none) }
      { op := OpPut, key := [2], value := [7] } =
      (some { locked := some { primaryLock := [9], lockVersion := 7, key := [2], lockTtl := 50 },
              conflict := some { startTs := 10, conflictTs := 7,
                                 key := [2], primary := [1] } },
       none, []) :=
  prewrite_locked _ _ _ none 0 { primary := [9], ts := 7, ttl := 50, kind := WriteKindPut }
    none rfl (by decide) rfl (by decide)

/-- C3, part of the proof: a lock held by the same transaction (and no
conflicting write) makes `prewriteMutation` succeed with no staged
action. -/
theorem prewrite_idempotent :
    (∀ (req : PrewriteRequest) (txn : MvccTxn) (mu : Mutation)
        (wOpt : Option Write) (cts : Nat) (kl : Lock) (e2 : Option String),
        txn.mostRecentWrite mu.key = (wOpt, cts, none) →
        ¬ (wOpt.isSome ∧ cts ≥ txn.startTS) →
        txn.getLock mu.key = (some kl, e2) →
        kl.ts = txn.startTS →
        prewriteMutation req txn mu = (none, none, [])) ∧
    (∀ (st : Store) (req : PrewriteRequest) (mu : Mutation) (startTS : Nat),
        mu.op = OpPut →
        st.lockCF mu.key = none →
        (∀ w cts, st.writeCF mu.key = some (w, cts) → cts < startTS) →
        prewriteMutation req (txnOf st startTS) mu =
          (none, none,
           [.putLock mu.key { primary := req.primaryLock, ts := startTS,
                              ttl := req.lockTtl, kind := mu.op + 1 },
            .putValue mu.key mu.value]) ∧
        prewriteMutation req
          (txnOf (applyStaged startTS st
             [.putLock mu.key { primary := req.primaryLock, ts := startTS,
                                ttl := req.lockTtl, kind := mu.op + 1 },
              .putValue mu.key mu.value]) startTS) mu =
          (none, none, [])) := by
  constructor
  · intro req txn mu wOpt cts kl e2 hmrw hnoconf hlock hts
    simp [prewriteMutation, hmrw, hnoconf, hlock, hts]
  · intro st req mu startTS hop hnl hw
    cases hwc : st.writeCF mu.key with
    | none =>
        constructor
        · simp [prewriteMutation, txnOf, hwc, hnl, hop]
        · simp [prewriteMutation, txnOf, applyStaged, hwc, hnl, hop]
    | some p =>
        obtain ⟨w, cts⟩ := p
        have hlt : ¬ startTS ≤ cts := Nat.not_le.mpr (hw w cts hwc)
        constructor
        · simp [prewriteMutation, txnOf, hwc, hnl, hop, hlt]
        · simp [prewriteMutation, txnOf, applyStaged, hwc, hnl, hop, hlt]

/-- Concrete empty store used to witness the idempotency claim. -/
def storeC3 : Store :=
  { lockCF := fun _ => none, defaultCF := fun _ _ => none, writeCF := fun _ => none }

/-- Concrete request used to witness the idempotency claim. -/
def reqC3 : PrewriteRequest :=
  { mutations := [{ op := OpPut, key := [2], value := [7] }],
    primaryLock := [1], startVersion := 10, lockTtl := 3 }

/-- Concrete mutation used to witness the idempotency claim. -/
def muC3 : Mutation := { op := OpPut, key := [2], value := [7] }

/-- C3 witness: on the empty store the first call stages exactly one lock
and one value, and a retry of the identical call succeeds staging
nothing. -/
theorem prewrite_idempotent_witness :
    prewriteMutation reqC3
      { startTS := 10, mostRecentWrite := fun _ => (none, 0, none),
        getLock := fun _ => (some { primary := [1], ts := 10, ttl := 3, kind := 1 }, none) }
      muC3 = (none, none, []) ∧
    (prewriteMutation reqC3 (txnOf storeC3 10) muC3 =
       (none, none,
        [.putLock [2] { primary := [1], ts := 10, ttl := 3, kind := 1 },
         .putValue [2] [7]]) ∧
     prewriteMutation reqC3
       (txnOf (applyStaged 10 storeC3
          [.putLock [2] { primary := [1], ts := 10, ttl := 3, kind := 1 },
           .putValue [2] [7]]) 10) muC3 = (none, none, [])) :=
  ⟨prewrite_idempotent.1 reqC3 _ muC3 none 0
      { primary := [1], ts := 10, ttl := 3, kind := 1 } none rfl (by decide) rfl rfl,
   prewrite_idempotent.2 storeC3 reqC3 muC3 10 rfl rfl
      (fun w cts h => by simp [storeC3] at h)⟩

/-- C4: with no conflicting write and no lock, `prewriteMutation` stages
exactly one lock {primary, start_ts, ttl, kind = op + 1} followed by the
value for a Put and a staged deletion for a Delete, returns success, and
stages no Write record. -/
theorem prewrite_install (req : PrewriteRequest) (txn : MvccTxn) (mu : Mutation)
    (wOpt : Option Write) (cts : Nat) (e2 : Option String)
    (hmrw : txn.mostRecentWrite mu.key = (wOpt, cts, none))
    (hnoconf : ¬ (wOpt.isSome ∧ cts ≥ txn.startTS))
    (hlock : txn.getLock mu.key = (none, e2)) :
    prewriteMutation req txn mu =
      (none, none,
       StagedWrite.putLock mu.key
         { primary := req.primaryLock, ts := txn.startTS,
           ttl := req.lockTtl, kind := mu.op + 1 } ::
       (if mu.op = OpPut then [.putValue mu.key mu.value]
        else if mu.op = OpDel then [.deleteValue mu.key]
        else [])) ∧
    ∀ s ∈ (prewriteMutation req txn mu).2.2, s.isPutWrite = false := by
  have h1 : prewriteMutation req txn mu =
      (none, none,
       StagedWrite.putLock mu.key
         { primary := req.primaryLock, ts := txn.startTS,
           ttl := req.lockTtl, kind := mu.op + 1 } ::
       (if mu.op = OpPut then [.putValue mu.key mu.value]
        else if mu.op = OpDel then [.deleteValue mu.key]
        else [])) := by
    by_cases hp : mu.op = OpPut
    · simp [prewriteMutation, hmrw, hnoconf, hlock, hp]
    · by_cases hd : mu.op = OpDel
      · simp [prewriteMutation, hmrw, hnoconf, hlock, hp, hd, OpPut, OpDel]
      · simp [prewriteMutation, hmrw, hnoconf, hlock, hp, hd]
  refine ⟨h1, ?_⟩
  intro s hs
  rw [h1] at hs
  simp only [List.mem_cons] at hs
  rcases hs with rfl | hs
  · rfl
  · split at hs
    · simp only [List.mem_singleton] at hs
      subst hs; rfl
    · split at hs
      · simp only [List.mem_singleton] at hs
        subst hs; rfl
      · simp at hs

/-- C4 witness: a Put on an unlocked, history-free key stages exactly the
lock and the value. -/
theorem prewrite_install_witness :
    (prewriteMutation
       { mutations := [{ op := OpPut, key := [2], value := [7] }],
         primaryLock := [1], startVersion := 10, lockTtl := 3 }
       { startTS := 10, mostRecentWrite := fun _ => (none, 0, none),
         getLock := fun _ => (none, none) }
       { op := OpPut, key := [2], value := [7] } =
       (none, none,
        StagedWrite.putLock [2] { primary := [1], ts := 10, ttl := 3, kind := OpPut + 1 } ::
        (if OpPut = OpPut then [.putValue [2] [7]]
         else if OpPut = OpDel then [.deleteValue [2]]
         else []))) ∧
    ∀ s ∈ (prewriteMutation
       { mutations := [{ op := OpPut, key := [2], value := [7] }],
         primaryLock := [1], startVersion := 10, lockTtl := 3 }
       { startTS := 10, mostRecentWrite := fun _ => (none, 0, none),
         getLock := fun _ => (none, none) }
       { op := OpPut, key := [2], value := [7] }).2.2, s.isPutWrite = false :=
  prewrite_install _ _ _ none 0 none rfl (by decide) rfl

/-- C7: the installed lock's kind maps Put to the Put write-kind and
Delete to the Delete write-kind (via the fixed offset `op + 1`). -/
theorem prewrite_lock_kind (req : PrewriteRequest) (txn : MvccTxn) (mu : Mutation)
    (wOpt : Option Write) (cts : Nat) (e2 : Option String)
    (hmrw : txn.mostRecentWrite mu.key = (wOpt, cts, none))
    (hnoconf : ¬ (wOpt.isSome ∧ cts ≥ txn.startTS))
    (hlock : txn.getLock mu.key = (none, e2)) :
    (mu.op = OpPut →
      prewriteMutation req txn mu =
        (none, none,
         [.putLock mu.key { primary := req.primaryLock, ts := txn.startTS,
                            ttl := req.lockTtl, kind := WriteKindPut },
          .putValue mu.key mu.value])) ∧
    (mu.op = OpDel →
      prewriteMutation req txn mu =
        (none, none,
         [.putLock mu.key { primary := req.primaryLock, ts := txn.startTS,
                            ttl := req.lockTtl, kind := WriteKindDelete },
          .deleteValue mu.key])) := by
  constructor
  · intro hp
    simp [prewriteMutation, hmrw, hnoconf, hlock, hp, OpPut, WriteKindPut]
  · intro hd
    have hp : ¬ mu.op = OpPut := by rw [hd]; decide
    simp [prewriteMutation, hmrw, hnoconf, hlock, hp, hd, OpPut, OpDel, WriteKindDelete]

/-- C7 witness: a Put mutation installs a lock of kind `WriteKindPut`;
(the Delete side is witnessed through the hypothesis `OpPut = OpPut`
being discharged on the Put instance and the Delete instance below). -/
theorem prewrite_lock_kind_witness :
    (OpPut = OpPut →
      prewriteMutation
        { mutations := [], primaryLock := [1], startVersion := 10, lockTtl := 3 }
        { startTS := 10, mostRecentWrite := fun _ => (none, 0, none),
          getLock := fun _ => (none, none) }
        { op := OpPut, key := [2], value := [7] } =
        (none, none,
         [.putLock [2] { primary := [1], ts := 10, ttl := 3, kind := WriteKindPut },
          .putValue [2] [7]])) ∧
    (OpPut = OpDel →
      prewriteMutation
        { mutations := [], primaryLock := [1], startVersion := 10, lockTtl := 3 }
        { startTS := 10, mostRecentWrite := fun _ => (none, 0, none),
          getLock := fun _ => (none, none) }
        { op := OpPut, key := [2], value := [7] } =
        (none, none,
         [.putLock [2] { primary := [1], ts := 10, ttl := 3, kind := WriteKindDelete },
          .deleteValue [2]])) :=
  prewrite_lock_kind
    { mutations := [], primaryLock := [1], startVersion := 10, lockTtl := 3 }
    { startTS := 10, mostRecentWrite := fun _ => (none, 0, none),
      getLock := fun _ => (none, none) }
    { op := OpPut, key := [2], value := [7] } none 0 none rfl (by decide) rfl

/-- C9: for an op that is neither Put nor Delete, on an unlocked,
conflict-free key, `prewriteMutation` still succeeds and stages only a
lock whose kind is the numeric op code plus one, with no value change. -/
theorem prewrite_other_op (req : PrewriteRequest) (txn : MvccTxn) (mu : Mutation)
    (wOpt : Option Write) (cts : Nat) (e2 : Option String)
    (hmrw : txn.mostRecentWrite mu.key = (wOpt, cts, none))
    (hnoconf : ¬ (wOpt.isSome ∧ cts ≥ txn.startTS))
    (hlock : txn.getLock mu.key = (none, e2))
    (hp : mu.op ≠ OpPut) (hd : mu.op ≠ OpDel) :
    prewriteMutation req txn mu =
      (none, none,
       [.putLock mu.key { primary := req.primaryLock, ts := txn.startTS,
                          ttl := req.lockTtl, kind := mu.op + 1 }]) := by
  simp [prewriteMutation, hmrw, hnoconf, hlock, hp, hd]

/-- C9 witness: a Rollback-op mutation stages only a lock of kind
`OpRollback + 1`. -/
theorem prewrite_other_op_witness :
    prewriteMutation
      { mutations := [], primaryLock := [1], startVersion := 10, lockTtl := 3 }
      { startTS := 10, mostRecentWrite := fun _ => (none, 0, none),
        getLock := fun _ => (none, none) }
      { op := OpRollback, key := [2], value := [7] } =
      (none, none,
       [.putLock [2] { primary := [1], ts := 10, ttl := 3, kind := OpRollback + 1 }]) :=
  prewrite_other_op
    { mutations := [], primaryLock := [1], startVersion := 10, lockTtl := 3 }
    { startTS := 10, mostRecentWrite := fun _ => (none, 0, none),
      getLock := fun _ => (none, none) }
    { op := OpRollback, key := [2], value := [7] } none 0 none rfl (by decide)
    rfl (by decide) (by decide)

/-- C8: when `MostRecentWrite` reports both a conflicting write
(`commit_ts ≥ start_ts`) and a non-nil internal error, the conflict
branch wins: the WriteConflict KeyError is returned, the internal error
is discarded (`none` in the error slot), and nothing is staged. -/
theorem prewrite_conflict_over_error (req : PrewriteRequest) (txn : MvccTxn)
    (mu : Mutation) (w : Write) (cts : Nat) (e : String)
    (hmrw : txn.mostRecentWrite mu.key = (some w, cts, some e))
    (hconf : cts ≥ txn.startTS) :
    prewriteMutation req txn mu =
      (some { conflict := some { startTs := txn.startTS, conflictTs := cts,
                                 key := mu.key, primary := req.primaryLock } },
       none, []) := by
  simp [prewriteMutation, hmrw, hconf]

/-- C8 witness: a read that reports a conflicting commit at ts 12 and a
storage error still produces the WriteConflict KeyError with no internal
error. -/
theorem prewrite_conflict_over_error_witness :
    prewriteMutation
      { mutations := [], primaryLock := [1], startVersion := 10, lockTtl := 3 }
      { startTS := 10,
        mostRecentWrite := fun _ =>
          (some { startTs := 5, kind := WriteKindPut }, 12, some "engine failure"),
        getLock := fun _ => (none, none) }
      { op := OpPut, key := [2], value := [7] } =
      (some { conflict := some { startTs := 10, conflictTs := 12,
                                 key := [2], primary := [1] } },
       none, []) :=
  prewrite_conflict_over_error
    { mutations := [], primaryLock := [1], startVersion := 10, lockTtl := 3 }
    { startTS := 10,
      mostRecentWrite := fun _ =>
        (some { startTs := 5, kind := WriteKindPut }, 12, some "engine failure"),
      getLock := fun _ => (none, none) }
    { op := OpPut, key := [2], value := [7] }
    { startTs := 5, kind := WriteKindPut } 12 "engine failure" rfl (by decide)

/-- C6: the source binds the error returned by `GetLock` but never
inspects it.  Concretely, when `GetLock` fails with a storage-engine
error (returning no lock), `prewriteMutation` proceeds to the install
branch: it returns success — not the internal error — and stages a lock
and value for the key, contradicting the documented contract that an
internal error is returned as `(nil, err)`. -/
theorem prewrite_getlock_error_ignored :
    prewriteMutation
      { mutations := [], primaryLock := [1], startVersion := 10, lockTtl := 3 }
      { startTS := 10, mostRecentWrite := fun _ => (none, 0, none),
        getLock := fun _ => (none, some "engine failure") }
      { op := OpPut, key := [2], value := [7] } =
      (none, none,
       [.putLock [2] { primary := [1], ts := 10, ttl := 3, kind := 1 },
        .putValue [2] [7]]) := by
  decide

/-- A mutation does not abort the batch: either its call produced a
KeyError (which is collected) or it produced no internal error. -/
abbrev NoAbort (req : PrewriteRequest) (txn : MvccTxn) (m : Mutation) : Prop :=
  (prewriteMutation req txn m).1 ≠ none ∨ (prewriteMutation req txn m).2.1 = none

/-- Loop invariant for `PrepareWrites`: while no mutation aborts, the
loop collects exactly the per-key errors in request order and
concatenates the staged writes. -/
theorem prewriteLoop_collects (req : PrewriteRequest) (txn : MvccTxn) :
    ∀ (ms : List Mutation) (errs : List KeyError) (staged : List StagedWrite),
    (∀ m ∈ ms, NoAbort req txn m) →
    prewriteLoop req txn ms errs staged =
      (some { errors := errs ++ ms.filterMap (fun m => (prewriteMutation req txn m).1) },
       none,
       staged ++ ms.flatMap (fun m => (prewriteMutation req txn m).2.2)) := by
  intro ms
  induction ms with
  | nil => intro errs staged _; simp [prewriteLoop]
  | cons m ms ih =>
      intro errs staged h
      have hm := h m (List.mem_cons_self m ms)
      have hrest : ∀ m2 ∈ ms, NoAbort req txn m2 :=
        fun m2 hm2 => h m2 (List.mem_cons_of_mem m hm2)
      cases hke : (prewriteMutation req txn m).1 with
      | some ke =>
          simp [prewriteLoop, hke, ih _ _ hrest, List.filterMap_cons, List.flatMap_cons]
      | none =>
          have herr : (prewriteMutation req txn m).2.1 = none := by
            rcases hm with h1 | h1
            · exact absurd hke h1
            · exact h1
          simp [prewriteLoop, hke, herr, ih _ _ hrest, List.filterMap_cons,
                List.flatMap_cons]

/-- Loop invariant for `PrepareWrites`: the first mutation that produces
an internal error with no KeyError aborts the loop with a nil response
and that error. -/
theorem prewriteLoop_aborts (req : PrewriteRequest) (txn : MvccTxn) :
    ∀ (ms1 : List Mutation) (m : Mutation) (ms2 : List Mutation)
      (errs : List KeyError) (staged : List StagedWrite) (e : String),
    (∀ m2 ∈ ms1, NoAbort req txn m2) →
    (prewriteMutation req txn m).1 = none →
    (prewriteMutation req txn m).2.1 = some e →
    (prewriteLoop req txn (ms1 ++ m :: ms2) errs staged).1 = none ∧
    (prewriteLoop req txn (ms1 ++ m :: ms2) errs staged).2.1 = some e := by
  intro ms1
  induction ms1 with
  | nil =>
      intro m ms2 errs staged e _ hke herr
      simp [prewriteLoop, hke, herr]
  | cons m1 ms1 ih =>
      intro m ms2 errs staged e hok hke herr
      have h1 := hok m1 (List.mem_cons_self m1 ms1)
      have hrest : ∀ m2 ∈ ms1, NoAbort req txn m2 :=
        fun m2 hm2 => hok m2 (List.mem_cons_of_mem m1 hm2)
      cases hke1 : (prewriteMutation req txn m1).1 with
      | some ke =>
          simpa [prewriteLoop, hke1] using ih m ms2 _ _ e hrest hke herr
      | none =>
          have herr1 : (prewriteMutation req txn m1).2.1 = none := by
            rcases h1 with h2 | h2
            · exact absurd hke1 h2
            · exact h2
          simpa [prewriteLoop, hke1, herr1] using ih m ms2 _ _ e hrest hke herr

/-- C5: per-key errors never abort the batch — when every mutation
either yields a collected KeyError or no internal error, `PrepareWrites`
returns the response listing exactly the per-key errors in request order
(empty list = full success) with a nil command error; and the first
mutation yielding an internal error (with no KeyError) aborts the whole
command, returning a nil response and that error. -/
theorem prepare_writes_batch :
    (∀ (req : PrewriteRequest) (txn : MvccTxn),
      (∀ m ∈ req.mutations, NoAbort req txn m) →
      PrepareWrites req txn =
        (some { errors :=
                  req.mutations.filterMap (fun m => (prewriteMutation req txn m).1) },
         none,
         req.mutations.flatMap (fun m => (prewriteMutation req txn m).2.2))) ∧
    (∀ (req : PrewriteRequest) (txn : MvccTxn) (ms1 : List Mutation) (m : Mutation)
        (ms2 : List Mutation) (e : String),
      req.mutations = ms1 ++ m :: ms2 →
      (∀ m2 ∈ ms1, NoAbort req txn m2) →
      (prewriteMutation req txn m).1 = none →
      (prewriteMutation req txn m).2.1 = some e →
      (PrepareWrites req txn).1 = none ∧ (PrepareWrites req txn).2.1 = some e) := by
  constructor
  · intro req txn h
    exact prewriteLoop_collects req txn req.mutations [] [] h
  · intro req txn ms1 m ms2 e hsplit hok hke herr
    have := prewriteLoop_aborts req txn ms1 m ms2 [] [] e hok hke herr
    simpa [PrepareWrites, hsplit] using this

/-- Concrete batch for the C5 witness: key [2] has a conflicting commit
at ts 12, key [3] is clean. -/
def reqBatchA : PrewriteRequest :=
  { mutations := [{ op := OpPut, key := [2], value := [7] },
                  { op := OpPut, key := [3], value := [8] }],
    primaryLock := [2], startVersion := 10, lockTtl := 3 }

/-- Concrete transaction view for the C5 witness (batch side). -/
def txnBatchA : MvccTxn :=
  { startTS := 10,
    mostRecentWrite := fun k =>
      if k = [2] then (some { startTs := 5, kind := WriteKindPut }, 12, none)
      else (none, 0, none),
    getLock := fun _ => (none, none) }

/-- Concrete one-mutation request for the C5 witness (abort side). -/
def reqBatchB : PrewriteRequest :=
  { mutations := [{ op := OpPut, key := [4], value := [9] }],
    primaryLock := [4], startVersion := 10, lockTtl := 3 }

/-- Concrete failing transaction view for the C5 witness (abort side):
every history read reports a storage-engine error. -/
def txnBatchB : MvccTxn :=
  { startTS := 10,
    mostRecentWrite := fun _ => (none, 0, some "engine failure"),
    getLock := fun _ => (none, none) }

/-- C5 witness: the two-mutation batch collects exactly the conflicting
key's error while still staging the clean key's lock and value, and the
batch containing a storage failure aborts with a nil response. -/
theorem prepare_writes_batch_witness :
    PrepareWrites reqBatchA txnBatchA =
      (some { errors := [{ conflict := some { startTs := 10, conflictTs := 12,
                                              key := [2], primary := [2] } }] },
       none,
       [.putLock [3] { primary := [2], ts := 10, ttl := 3, kind := 1 },
        .putValue [3] [8]]) ∧
    ((PrepareWrites reqBatchB txnBatchB).1 = none ∧
     (PrepareWrites reqBatchB txnBatchB).2.1 = some "engine failure") :=
  ⟨(prepare_writes_batch.1 reqBatchA txnBatchA (by decide)).trans (by decide),
   prepare_writes_batch.2 reqBatchB txnBatchB []
     { op := OpPut, key := [4], value := [9] } [] "engine failure" rfl
     (by simp) (by decide) (by decide)⟩

/-- Every write `prewriteMutation` stages touches exactly the mutation's
key. -/
theorem prewriteMutation_staged_key (req : PrewriteRequest) (txn : MvccTxn)
    (mu : Mutation) :
    ∀ s ∈ (prewriteMutation req txn mu).2.2, s.wkey = mu.key := by
  intro s hs
  rcases hmrw : txn.mostRecentWrite mu.key with ⟨wOpt, cts, e⟩
  by_cases hconf : wOpt.isSome ∧ cts ≥ txn.startTS
  · simp [prewriteMutation, hmrw, hconf] at hs
  · by_cases herr : e.isSome
    · simp [prewriteMutation, hmrw, hconf, herr] at hs
    · rcases hlock : txn.getLock mu.key with ⟨lockOpt, e2⟩
      cases lockOpt with
      | some kl =>
          by_cases hts : kl.ts ≠ txn.startTS
          · simp [prewriteMutation, hmrw, hconf, herr, hlock, hts] at hs
          · simp [prewriteMutation, hmrw, hconf, herr, hlock, hts] at hs
      | none =>
          by_cases hp : mu.op = OpPut
          · simp [prewriteMutation, hmrw, hconf, herr, hlock, hp] at hs
            rcases hs with rfl | rfl <;> rfl
          · by_cases hd : mu.op = OpDel
            · simp [prewriteMutation, hmrw, hconf, herr, hlock, hp, hd, OpPut, OpDel] at hs
              rcases hs with rfl | rfl <;> rfl
            · simp [prewriteMutation, hmrw, hconf, herr, hlock, hp, hd] at hs
              subst hs; rfl

/-- Every write staged by the `PrepareWrites` loop either was already in
the buffer or touches the key of one of the remaining mutations. -/
theorem prewriteLoop_staged_keys (req : PrewriteRequest) (txn : MvccTxn) :
    ∀ (ms : List Mutation) (errs : List KeyError) (staged : List StagedWrite),
    ∀ s ∈ (prewriteLoop req txn ms errs staged).2.2,
      s ∈ staged ∨ s.wkey ∈ ms.map (fun m => m.key) := by
  intro ms
  induction ms with
  | nil =>
      intro errs staged s hs
      left
      simpa [prewriteLoop] using hs
  | cons m ms ih =>
      intro errs staged s hs
      have hstep : ∀ rest ∈ (prewriteMutation req txn m).2.2 , rest.wkey = m.key :=
        prewriteMutation_staged_key req txn m
      cases hke : (prewriteMutation req txn m).1 with
      | some ke =>
          rw [prewriteLoop] at hs
          simp only [hke] at hs
          rcases ih (errs ++ [ke]) (staged ++ (prewriteMutation req txn m).2.2) s hs
            with h | h
          · rcases List.mem_append.mp h with h2 | h2
            · exact Or.inl h2
            · exact Or.inr (by simp [hstep s h2])
          · exact Or.inr (by simp [h])
      | none =>
          cases herr : (prewriteMutation req txn m).2.1 with
          | some e =>
              rw [prewriteLoop] at hs
              simp only [hke, herr] at hs
              rcases List.mem_append.mp hs with h2 | h2
              · exact Or.inl h2
              · exact Or.inr (by simp [hstep s h2])
          | none =>
              rw [prewriteLoop] at hs
              simp only [hke, herr] at hs
              rcases ih errs (staged ++ (prewriteMutation req txn m).2.2) s hs
                with h | h
              · rcases List.mem_append.mp h with h2 | h2
                · exact Or.inl h2
                · exact Or.inr (by simp [hstep s h2])
              · exact Or.inr (by simp [h])

/-- `WillWrite`'s fold, from any accumulator, appends the mutation keys
in order. -/
theorem willWrite_foldl (ms : List Mutation) :
    ∀ acc : List Bytes,
      ms.foldl (fun result m => result ++ [m.key]) acc = acc ++ ms.map (fun m => m.key) := by
  induction ms with
  | nil => intro acc; simp
  | cons m ms ih => intro acc; simp [ih, List.append_assoc]

/-- C10: `WillWrite` returns exactly the mutation keys in request order
(one entry per mutation, duplicates preserved), and every write staged by
`PrepareWrites` touches a key in that list, so the declared latch set
covers everything the command stages. -/
theorem will_write_keys (req : PrewriteRequest) (txn : MvccTxn) :
    WillWrite req = req.mutations.map (fun m => m.key) ∧
    ∀ s ∈ (PrepareWrites req txn).2.2, s.wkey ∈ WillWrite req := by
  have hW : WillWrite req = req.mutations.map (fun m => m.key) :=
    (willWrite_foldl req.mutations []).trans (by simp)
  refine ⟨hW, ?_⟩
  intro s hs
  rcases prewriteLoop_staged_keys req txn req.mutations [] [] s hs with h | h
  · simp at h
  · rw [hW]; exact h

/-- C10 witness: on a concrete two-mutation batch (with a duplicate key)
the declared latch list is exactly the mutation keys in order, and a
concrete staged write's key lies in it. -/
theorem will_write_keys_witness :
    WillWrite reqBatchA = [[2], [3]] ∧
    StagedWrite.wkey
      (.putLock [3] { primary := [2], ts := 10, ttl := 3, kind := 1 }) ∈
      WillWrite reqBatchA :=
  ⟨((will_write_keys reqBatchA txnBatchA).1).trans (by decide),
   (will_write_keys reqBatchA txnBatchA).2
     (.putLock [3] { primary := [2], ts := 10, ttl := 3, kind := 1 }) (by decide)⟩
